import Mathlib

/-!
Verification of the `binlogsync` replication client (`Canal`) and its table
metadata cache (`ddl.Tables`) in this repository.  The Go source is embedded
shallowly: pure functions become Lean functions, stateful methods become
explicit state passing, database I/O becomes an oracle (`Db`) whose fields
record the outcome of each query the embedded code issues, and wall-clock
time is passed explicitly in milliseconds.

Collaborator packages whose source is not part of the snapshot
(`sync/singleflight`, `util/conv`, `ddl.Table` internals, `ddl.Variables`,
`ddl.MasterStatus`) are modelled from the specification; each such
definition carries a doc comment starting with `Modelled from the spec:`.
-/

/-- Error kinds of the `corestoreio/errors` package, restricted to the kinds
the embedded code produces or inspects (`errors.Is`, `errors.NotFound.Newf`,
`errors.NotSupported.Newf`, `errors.NotValid.Newf`). -/
inductive ErrKind where
  | notFound
  | notSupported
  | notValid
  | dbFailure
deriving DecidableEq, Repr

/-- A Go error value: a kind plus a message payload.  `errors.WithStack`
only attaches a stack trace, so it is the identity in this model. -/
structure Err where
  kind : ErrKind
  msg : String
deriving DecidableEq, Repr

/-- Go map assignment `m[k] = v` for a string-keyed association list with
unique keys. -/
def mapSet {α : Type} (m : List (String × α)) (k : String) (v : α) :
    List (String × α) :=
  match m with
  | [] => [(k, v)]
  | (k1, v1) :: rest => if k1 = k then (k, v) :: rest else (k1, v1) :: mapSet rest k v

/-- Go map read `v, ok := m[k]`. -/
def mapLookup {α : Type} (m : List (String × α)) (k : String) : Option α :=
  match m with
  | [] => none
  | (k1, v1) :: rest => if k1 = k then some v1 else mapLookup rest k

/-- Go `delete(m, k)`. -/
def mapErase {α : Type} (m : List (String × α)) (k : String) :
    List (String × α) :=
  match m with
  | [] => []
  | (k1, v1) :: rest => if k1 = k then rest else (k1, v1) :: mapErase rest k

/-- `strings.Contains(s, sub)`.  `String.splitOn` produces more than one
chunk exactly when `sub` occurs in `s` (and `splitOn` with the empty pattern
returns `[s]`, while Go's `Contains` with an empty pattern is true). -/
def containsSub (s sub : String) : Bool :=
  sub == "" || (s.splitOn sub).length != 1

/-- Modelled from the spec: `ddl.Table` (source file not in the snapshot;
spec section 3 "Table Metadata Cache Entry": table name, schema name,
ordered column list, view/table flag, raw CREATE statement).  Column
metadata is represented by the column field names, which is all the claims
inspect.  The derived lookup fields recomputed by Go's `Table.update` are
not represented, so `update` is the identity here. -/
structure Table where
  schema : String
  name : String
  columns : List String
  isView : Bool
  createStmt : String
deriving DecidableEq, Repr

/-- Modelled from the spec: `ddl.NewTable(name)` creates a fresh entry with
no columns and empty schema/CREATE statement. -/
def NewTable (name : String) : Table :=
  { schema := "", name := name, columns := [], isView := false, createStmt := "" }

/-- `ddl.Tables` (src/sql/ddl/tables.go): the table cache; `schema` is the
database name, `tm` the map from table name to table.  The reader/writer
lock only serialises access and has no sequential effect. -/
structure Tables where
  schema : String
  tm : List (String × Table)
deriving DecidableEq, Repr

/-- `ddl.MustNewTables()` with no options: an empty cache. -/
def mustNewTables : Tables := { schema := "", tm := [] }

/-- `Tables.Table(name)` (tables.go line 298): cache lookup, returning the
`errTableNotFound` error (kind `NotFound`) on a miss. -/
def Tables.table (tm : Tables) (name : String) : Except Err Table :=
  match mapLookup tm.tm name with
  | some t => Except.ok t
  | none => Except.error { kind := ErrKind.notFound, msg := name }

/-- `Tables.DeleteFromCache(tableNames...)` (tables.go line 376): removes
the named entries from the map. -/
def Tables.deleteFromCache (tm : Tables) (tableNames : List String) : Tables :=
  { tm with tm := tableNames.foldl (fun m n => mapErase m n) tm.tm }

/-- `Tables.DeleteAllFromCache()` (tables.go line 385): resets the map. -/
def Tables.deleteAllFromCache (tm : Tables) : Tables :=
  { tm with tm := [] }

/-- Database oracle: the outcome of each query the embedded code issues.
Each field corresponds to one collaborator call whose result is external
I/O: `Table.loadCreateSyntax` (SHOW CREATE TABLE), `Table.Create`
(executing a CREATE statement), `ddl.LoadColumns` (information_schema
column query, returning a map from table name to its column field list),
the `SHOW MASTER STATUS` load of `withUpdateBinlogStart`, and the system
variable load used by `ddl.Variables`. -/
structure Db where
  showCreate : String → Except Err String
  execCreate : String → Option Err
  loadColumnsAll : List String → Except Err (String → List String)
  masterStatusQuery : Except Err (String × Nat)
  sysVar : String → Except Err String

/-- Modelled from the spec: `dml.IsValidIdentifier` (source not in the
snapshot).  A MySQL identifier: non-empty, at most 64 characters, drawn
from alphanumerics, `$`, `_` and the qualifier dot; returns a `NotValid`
error otherwise. -/
def isValidIdentifier (name : String) : Option Err :=
  if name = "" || name.length > 64 then
    some { kind := ErrKind.notValid, msg := name }
  else if name.toList.all (fun ch => ch.isAlphanum || ch = '_' || ch = '$' || ch = '.') then
    none
  else
    some { kind := ErrKind.notValid, msg := name }

/-- `ddl.isCreateStmt` (tables.go line 169). -/
def isCreateStmt (idName stmt : String) : Bool :=
  stmt != "" && stmt.startsWith "CREATE " && containsSub stmt idName

/-- The per-pair loop body of `WithCreateTable` (tables.go lines 126-151):
for each (table name, create syntax) pair it validates the identifier,
inserts a fresh `NewTable` into the map, optionally executes the CREATE
statement, and loads the CREATE syntax from the database.  Go mutates the
map in place, so on error the insertions made so far persist: the function
returns the updated map together with the error. -/
def wctLoop (db : Db) (tm : Tables) (tvNames : List String) :
    List String → Tables × List String × Option Err
  | [] => (tm, tvNames, none)
  | [_] => (tm, tvNames, none)
  | tvName :: tvCreate :: rest =>
    match isValidIdentifier tvName with
    | some e => (tm, tvNames, some e)
    | none =>
      let tvNames1 := tvNames ++ [tvName]
      let t0 := NewTable tvName
      let tm1 : Tables := { tm with tm := mapSet tm.tm tvName t0 }
      if isCreateStmt tvName tvCreate then
        let t1 : Table := { t0 with
          isView := containsSub tvCreate " VIEW " || tvName.startsWith "view_",
          createStmt := tvCreate }
        let tm2 : Tables := { tm1 with tm := mapSet tm1.tm tvName t1 }
        match db.execCreate tvCreate with
        | some e => (tm2, tvNames1, some e)
        | none =>
          match db.showCreate tvName with
          | Except.error e => (tm2, tvNames1, some e)
          | Except.ok cs =>
            let t2 : Table := { t1 with createStmt := cs }
            wctLoop db { tm2 with tm := mapSet tm2.tm tvName t2 } tvNames1 rest
      else
        match db.showCreate tvName with
        | Except.error e => (tm1, tvNames1, some e)
        | Except.ok cs =>
          let t2 : Table := { t0 with createStmt := cs }
          wctLoop db { tm1 with tm := mapSet tm1.tm tvName t2 } tvNames1 rest

/-- `ddl.WithCreateTable(ctx, db, identifierCreateSyntax...)` applied
through `Tables.Options` (tables.go lines 113-167).  `Options` with this
single option just runs its `fn`.  The odd-length check comes first; after
the loop the column definitions for all processed tables are loaded and
merged into the map (`t.Schema`, `t.Columns`, `t.update()`).  The `db`
handle in `FindTable` is never nil, so the nil-db branch that skips
`LoadColumns` is not represented. -/
def withCreateTable (db : Db) (identifierCreateSyntax : List String)
    (tm : Tables) : Tables × Option Err :=
  if identifierCreateSyntax.length % 2 = 1 then
    (tm, some { kind := ErrKind.notValid, msg := "unbalanced" })
  else
    match wctLoop db tm [] identifierCreateSyntax with
    | (tm1, _, some e) => (tm1, some e)
    | (tm1, tvNames, none) =>
      match db.loadColumnsAll tvNames with
      | Except.error e => (tm1, some e)
      | Except.ok tc =>
        let tm2 := tvNames.foldl (fun (acc : Tables) n =>
          match mapLookup acc.tm n with
          | some t =>
            let t1 : Table := { t with schema := acc.schema, columns := tc n }
            { acc with tm := mapSet acc.tm n t1 }
          | none => acc) tm1
        (tm2, none)

/-- The closure `FindTable` hands to `tableSFG.Do` (part_010 lines
758-768): run `WithCreateTable(ctx, db, tableName, "")` through
`Tables.Options`, then re-read the table from the cache. -/
def findTableLoad (db : Db) (tm : Tables) (tableName : String) :
    Except Err Table × Tables :=
  match withCreateTable db [tableName, ""] tm with
  | (tm1, some e) => (Except.error e, tm1)
  | (tm1, none) =>
    match tm1.table tableName with
    | Except.error e => (Except.error e, tm1)
    | Except.ok t => (Except.ok t, tm1)

/-- `Canal.FindTable(ctx, tableName)` (part_010 lines 747-775) for a single
caller; with no other call in flight, `singleflight.Group.Do` executes the
given function directly.  The returned Bool records whether the
single-flight load ran (the "load counter" of testable property P2); it is
`false` exactly when the call was served from the cache or failed before
reaching the loader. -/
def findTable (db : Db) (tm : Tables) (tableName : String) :
    Except Err Table × Tables × Bool :=
  match tm.table tableName with
  | Except.ok t => (Except.ok t, tm, false)
  | Except.error e =>
    if e.kind ≠ ErrKind.notFound then (Except.error e, tm, false)
    else
      match findTableLoad db tm tableName with
      | (r, tm1) => (r, tm1, true)

/-- `Canal.ClearTableCache(db, table)` (part_010 lines 777-785): the body
consists only of comments (`TODO implement`); the cache is untouched. -/
def clearTableCache (tm : Tables) (_db _table : String) : Tables := tm

/-- Modelled from the spec: `ddl.MasterStatus` (source not in the snapshot;
spec section 3 "MasterStatus / Position": binlog file name and unsigned
byte offset).  Its `WriteTo` serialisation is represented by the record
itself when handed to the persistence sink. -/
structure MasterStatus where
  file : String
  position : Nat
deriving DecidableEq, Repr

/-- The position-tracking fields of `Canal` guarded by `masterMu`:
`masterStatus` and `masterLastSaveTime`.  Wall-clock time is in
milliseconds. -/
structure PosState where
  masterStatus : MasterStatus
  masterLastSaveTime : Nat
deriving DecidableEq, Repr

/-- `time.Second` in the millisecond clock of this model. -/
def oneSecond : Nat := 1000

/-- The persistence sink collaborator `config.Setter`: the outcome of
`Set(ConfigPathBackendPosition, serialisedStatus)` for a given status. -/
def Sink : Type := MasterStatus → Option Err

/-- `Canal.masterSave(fileName, pos)` (part_010 lines 650-684), with the
current time `now` passed explicitly.  Returns the Go error result, the
updated state, and whether a sink write (a `cfgBackend.Set` call) was
performed.  Mirrors the source order: update the in-memory coordinates
unconditionally; return if less than one second has elapsed since
`masterLastSaveTime`; return if no sink is configured; otherwise write,
propagating a sink error without advancing `masterLastSaveTime`, and
advancing it on success.  Go computes `now.Sub(masterLastSaveTime)` on a
monotone clock, so `now` is never behind the stored time; Nat subtraction
agrees on that domain. -/
def masterSave (cfgBackend : Option Sink) (s : PosState) (now : Nat)
    (fileName : String) (pos : Nat) : Option Err × PosState × Bool :=
  let s1 : PosState := { s with masterStatus := { file := fileName, position := pos } }
  if now - s1.masterLastSaveTime < oneSecond then (none, s1, false)
  else
    match cfgBackend with
    | none => (none, s1, false)
    | some sink =>
      match sink s1.masterStatus with
      | some e => (some e, s1, true)
      | none => (none, { s1 with masterLastSaveTime := now }, true)

/-- `Canal.SyncedPosition()` (part_010 lines 686-692): a read-locked
snapshot of `masterStatus`. -/
def syncedPosition (s : PosState) : MasterStatus := s.masterStatus

/-- One `Save` request: its wall-clock time, file name and offset. -/
structure SaveCall where
  time : Nat
  file : String
  pos : Nat
deriving DecidableEq, Repr

/-- One `masterSave` call folded over the state together with a count of
the successful sink writes so far (a `Set` call that returned nil). -/
def saveStep (cfgBackend : Option Sink) (acc : PosState × Nat)
    (call : SaveCall) : PosState × Nat :=
  match masterSave cfgBackend acc.1 call.time call.file call.pos with
  | (e, s1, wrote) => (s1, acc.2 + (if wrote && e.isNone then 1 else 0))

/-- A sequence of `masterSave` calls, counting the successful sink writes. -/
def runSaves (cfgBackend : Option Sink) (s : PosState) (calls : List SaveCall) :
    PosState × Nat :=
  calls.foldl (saveStep cfgBackend) (s, 0)

/-- The shutdown-relevant state of `Canal`: the atomic `closed` flag,
whether `syncer` is non-nil, and instrumentation counting how often the
syncer was closed, the pool was closed, and the wait-group was awaited.
`Close` holds the `mclose` mutex for its whole body, so concurrent calls
execute serially; the model is that serialisation. -/
structure CloseState where
  closed : Bool
  syncerOpen : Bool
  syncerCloseCalls : Nat
  dbcpCloseCalls : Nat
  wgWaitCalls : Nat
deriving DecidableEq, Repr

/-- `Canal.Close()` (part_010 lines 721-741) under the `mclose` lock, with
the outcome of `dbcp.Close()` supplied by the environment.  If the closed
flag is already set, return nil immediately.  Otherwise set the flag, close
the syncer when present, close the pool, and either propagate the pool's
error (returning before the wait-group is awaited, as the source does) or
await the wait-group and return nil. -/
def close (dbcpCloseErr : Option Err) (s : CloseState) : Option Err × CloseState :=
  if s.closed then (none, s)
  else
    let s1 : CloseState := { s with closed := true }
    let s2 : CloseState :=
      if s1.syncerOpen then
        { s1 with syncerOpen := false, syncerCloseCalls := s1.syncerCloseCalls + 1 }
      else s1
    let s3 : CloseState := { s2 with dbcpCloseCalls := s2.dbcpCloseCalls + 1 }
    match dbcpCloseErr with
    | some e => (some e, s3)
    | none => (none, { s3 with wgWaitCalls := s3.wgWaitCalls + 1 })

/-- `strings.EqualFold` restricted to ASCII case folding, which covers
every string the embedded code compares.  Used by the modelled
`ddl.Variables.EqualFold`. -/
def equalFold (a b : String) : Bool :=
  a.data.map Char.toLower == b.data.map Char.toLower

/-- `withCheckBinlogRowFormat` (part_010 lines 586-598): load the
`binlog_format` server variable and fail with a `NotSupported` error when
it is not (case-insensitively) `ROW`. -/
def withCheckBinlogRowFormat (db : Db) : Option Err :=
  match db.sysVar "binlog_format" with
  | Except.error e => some e
  | Except.ok v =>
    if !(equalFold v "ROW") then
      some { kind := ErrKind.notSupported,
             msg := "binlog variable binlog_format must have the configured ROW format" }
    else none

/-- `Canal.flavor()` (part_010 lines 807-820): the `flavor` canal
parameter, defaulting to and normalising onto `mysql` unless it is exactly
`mariadb`. -/
def flavorOf (canalParams : List (String × String)) : String :=
  let f := match mapLookup canalParams "flavor" with
    | some v => if v != "" then v else ""
    | none => ""
  let f1 := if f = "" then "mysql" else f
  if f1 = "mariadb" then "mariadb" else "mysql"

/-- `Canal.CheckBinlogRowImage(ctx, image)` (part_010 lines 788-805): for
the mysql flavor, load the `binlog_row_image` server variable and return a
`NotSupported` error under the source's `v.EqualFold(varName, image)`
condition, nil otherwise. -/
def checkBinlogRowImage (canalParams : List (String × String)) (db : Db)
    (image : String) : Option Err :=
  if flavorOf canalParams = "mysql" then
    match db.sysVar "binlog_row_image" with
    | Except.error e => some e
    | Except.ok v =>
      if equalFold v image then
        some { kind := ErrKind.notSupported,
               msg := "MySQL uses this binlog row image, but we want the requested one" }
      else none
  else none

/-- Decimal digit parsing over characters: `some` of the value when every
character is a digit, `none` otherwise. -/
def decDigits : List Char → Nat → Option Nat
  | [], acc => some acc
  | c :: rest, acc =>
    if c.isDigit then decDigits rest (acc * 10 + (c.toNat - 48)) else none

/-- Modelled from the spec: `conv.ToUint` (source not in the snapshot)
parses a decimal string into an unsigned integer, yielding 0 when the
string is not a number. -/
def toUint (s : String) : Nat :=
  match s.data with
  | [] => 0
  | cs => (decDigits cs 0).getD 0

/-- Modelled from the spec: `conv.ToInt`, as `toUint` but signed. -/
def toInt (s : String) : Int :=
  match s.data with
  | [] => 0
  | c :: rest =>
    if c = Char.ofNat 45 then
      match decDigits rest 0 with
      | some n => -(n : Int)
      | none => 0
    else ((decDigits (c :: rest) 0).getD 0 : Int)

/-- Go's `uint32(i)` conversion: two's-complement truncation to 32 bits. -/
def uint32Of (i : Int) : Nat := (i % (2 ^ 32 : Int)).toNat

/-- Go's `uint16(i)` conversion. -/
def uint16Of (i : Int) : Nat := (i % (2 ^ 16 : Int)).toNat

/-- Split a character list at its last colon. -/
def splitAtLastColon : List Char → Option (List Char × List Char)
  | [] => none
  | c :: rest =>
    match splitAtLastColon rest with
    | some (h, p) => some (c :: h, p)
    | none => if c = Char.ofNat 58 then some ([], rest) else none

/-- `net.SplitHostPort` for the `host:port` addresses the DSN carries:
split at the last colon; an address with no colon is an address error. -/
def splitHostPort (addr : String) : Except Err (String × String) :=
  match splitAtLastColon addr.data with
  | some (h, p) => Except.ok (String.mk h, String.mk p)
  | none => Except.error { kind := ErrKind.notValid, msg := addr }

/-- The parsed DSN (`mysql.Config` as produced by the external
`mysql.ParseDSN` collaborator): the fields `NewCanal` reads. -/
structure MysqlConfig where
  user : String
  passwd : String
  addr : String
  dbName : String
  params : List (String × String)
deriving DecidableEq, Repr

/-- `customMySQLParams` (part_010 line 600). -/
def customMySQLParams : List String :=
  ["BinlogStartFile", "BinlogStartPosition", "BinlogSlaveId", "flavor"]

/-- The parameter-stripping loop of `NewCanal` (part_010 lines 619-628):
every custom parameter present with a non-empty value is copied into
`canalParams` and deleted from the DSN parameter map.  Returns the
remaining DSN parameters and the extracted canal parameters. -/
def stripParams (dsnParams : List (String × String)) :
    List (String × String) × List (String × String) :=
  customMySQLParams.foldl (fun acc p =>
    match mapLookup acc.1 p with
    | some v => if v != "" then (mapErase acc.1 p, mapSet acc.2 p v) else acc
    | none => acc) (dsnParams, [])

/-- The override step of `withUpdateBinlogStart` (part_010 lines 546-556):
starting from the server-derived master status, `BinlogStartFile` replaces
the file name when present and non-empty, and `BinlogStartPosition`
replaces the offset only when it parses to at least 4. -/
def updateBinlogStart (canalParams : List (String × String))
    (ms : MasterStatus) : MasterStatus :=
  let ms1 := match mapLookup canalParams "BinlogStartFile" with
    | some v => if v != "" then { ms with file := v } else ms
    | none => ms
  match mapLookup canalParams "BinlogStartPosition" with
  | some v =>
    if v != "" then
      (if 4 ≤ toUint v then { ms1 with position := toUint v } else ms1)
    else ms1
  | none => ms1

/-- `withPrepareSyncer` (part_010 lines 560-584): split the DSN address,
take the replication server ID from `BinlogSlaveId` (default 100), and
build the syncer configuration.  Returns the host, the 16-bit port and the
32-bit server ID handed to `myreplicator.BinlogSyncerConfig`. -/
def prepareSyncer (dsnAddr : String) (canalParams : List (String × String)) :
    Except Err (String × Nat × Nat) :=
  match splitHostPort dsnAddr with
  | Except.error e => Except.error e
  | Except.ok (host, port) =>
    let blSlaveID : Int := match mapLookup canalParams "BinlogSlaveId" with
      | some v => if v != "" then toInt v else 100
      | none => 100
    Except.ok (host, uint16Of (toInt port), uint32Of blSlaveID)

/-- The constructed client state `NewCanal` produces: the stripped DSN
parameters handed to the connector, the extracted canal parameters, the
seeded master position, and the syncer configuration fields. -/
structure Canal where
  dsnParams : List (String × String)
  canalParams : List (String × String)
  masterStatus : MasterStatus
  host : String
  port : Nat
  serverID : Nat
deriving DecidableEq, Repr

/-- `NewCanal(dsn, WithDB(db))` (part_010 lines 605-646) after DSN parsing:
strip the custom parameters, then apply the option chain
`withUpdateBinlogStart` (server status load plus start overrides),
`withPrepareSyncer`, `withCheckBinlogRowFormat`, failing on the first
option error exactly as the source's option loop does. -/
def newCanal (cfg : MysqlConfig) (db : Db) : Except Err Canal :=
  match stripParams cfg.params with
  | (dsnParams, canalParams) =>
    match db.masterStatusQuery with
    | Except.error e => Except.error e
    | Except.ok (msFile, msPos) =>
      let ms := updateBinlogStart canalParams { file := msFile, position := msPos }
      match prepareSyncer cfg.addr canalParams with
      | Except.error e => Except.error e
      | Except.ok (host, port, serverID) =>
        match withCheckBinlogRowFormat db with
        | some e => Except.error e
        | none =>
          let c : Canal := {
            dsnParams := dsnParams
            canalParams := canalParams
            masterStatus := ms
            host := host
            port := port
            serverID := serverID }
          Except.ok c

/-- Where one `FindTable` caller stands in the concurrent scenario: about
to run the cache lookup, leading the single-flight load, waiting on an
in-flight load, or returned. -/
inductive Pc where
  | start
  | leading
  | waiting
  | done
deriving DecidableEq, Repr

deriving instance DecidableEq for Except

/-- One concurrent `FindTable` caller: its program counter and, once it has
returned, its result. -/
structure Caller where
  pc : Pc
  res : Option (Except Err Table)
deriving DecidableEq, Repr

/-- The shared state of N concurrent `FindTable(ctx, t)` calls for one
table name `t`: the table cache, whether the single-flight group has a
call in flight for the key `t`, how many times the load function has
executed, and the callers.  Modelled from the spec for the de-duplication
itself (`sync/singleflight` source is not in the snapshot): `Do` makes the
first caller for an absent key the leader that runs the function, makes
later callers for the same key wait, and broadcasts the leader's result to
every waiter when the call completes. -/
structure SfState where
  tables : Tables
  flightActive : Bool
  loadCount : Nat
  callers : List Caller
deriving DecidableEq, Repr

/-- An interleaving step: caller `i` executes the lookup-and-enroll section
of `FindTable` (the `tables.Table` check followed, on a miss, by entering
`tableSFG.Do`), or the in-flight load completes and broadcasts. -/
inductive SfLabel where
  | check (i : Nat)
  | complete
deriving DecidableEq, Repr

/-- The initial state: `n` callers about to call `FindTable`. -/
def sfInit (n : Nat) (tm : Tables) : SfState :=
  { tables := tm, flightActive := false, loadCount := 0,
    callers := List.replicate n { pc := Pc.start, res := none } }

/-- Small-step semantics of the concurrent scenario.  `check i` follows
part_010 lines 750-758: a cache hit returns the entry at once; a non-
NotFound lookup error returns it; otherwise the caller enters `Do`,
becoming leader when no call is in flight and a waiter otherwise.
`complete` follows lines 758-768: the leader's function body runs
(`findTableLoad`, counted by `loadCount`), the cache advances to the
function's final state, and the result is broadcast to the leader and
every waiter.  A step that is not enabled yields `none`. -/
def sfExec (db : Db) (t : String) (s : SfState) : SfLabel → Option SfState
  | SfLabel.check i =>
    match s.callers.get? i with
    | none => none
    | some c =>
      if c.pc ≠ Pc.start then none
      else
        match s.tables.table t with
        | Except.ok v =>
          some { s with callers :=
            s.callers.set i { pc := Pc.done, res := some (Except.ok v) } }
        | Except.error e =>
          if e.kind ≠ ErrKind.notFound then
            some { s with callers :=
              s.callers.set i { pc := Pc.done, res := some (Except.error e) } }
          else if s.flightActive then
            some { s with callers :=
              s.callers.set i { pc := Pc.waiting, res := none } }
          else
            some { s with
              flightActive := true
              callers := s.callers.set i { pc := Pc.leading, res := none } }
  | SfLabel.complete =>
    if s.callers.any (fun c => decide (c.pc = Pc.leading)) then
      match findTableLoad db s.tables t with
      | (r, tm1) =>
        some { tables := tm1
               flightActive := false
               loadCount := s.loadCount + 1
               callers := s.callers.map (fun c =>
                 if c.pc = Pc.leading ∨ c.pc = Pc.waiting then
                   { pc := Pc.done, res := some r } else c) }
    else none

/-- Run a whole interleaving; `none` when some step was not enabled. -/
def sfRun (db : Db) (t : String) : SfState → List SfLabel → Option SfState
  | s, [] => some s
  | s, l :: ls =>
    match sfExec db t s l with
    | none => none
    | some s1 => sfRun db t s1 ls

/-- The value the one load produces from cache state `tm`: what every
concurrent caller must receive. -/
def sfExpected (db : Db) (tm : Tables) (t : String) : Except Err Table :=
  (findTableLoad db tm t).1

/-- A database fixture on which every metadata query succeeds. -/
def dbOkFixture : Db := {
  showCreate := fun n => Except.ok ("CREATE TABLE " ++ n)
  execCreate := fun _ => none
  loadColumnsAll := fun _ => Except.ok (fun n => if n = "t0" then ["id", "sku"] else [])
  masterStatusQuery := Except.ok ("srv-bin.000009", 157)
  sysVar := fun _ => Except.ok "ROW" }

/-- A database fixture whose SHOW CREATE TABLE introspection fails. -/
def dbShowCreateFails : Db := { dbOkFixture with
  showCreate := fun _ => Except.error { kind := ErrKind.dbFailure, msg := "conn lost" } }

/-- A sink whose `Set` always fails. -/
def failingSink : Sink := fun _ => some { kind := ErrKind.dbFailure, msg := "sink down" }

/-- `mapSet` followed by lookup of the same key yields the new value. -/
theorem mapLookup_mapSet_self {α : Type} (m : List (String × α)) (k : String)
    (v : α) : mapLookup (mapSet m k v) k = some v := by
  induction m with
  | nil => simp [mapSet, mapLookup]
  | cons hd tl ih =>
    obtain ⟨k1, v1⟩ := hd
    by_cases h : k1 = k <;> simp [mapSet, mapLookup, h, ih]

/-- C5.  Get-after-set on the position tracker: whatever the sink
configuration, the throttle outcome and the sink result, `Save(f, p)`
leaves the in-memory coordinates at file `f` and offset `p`, which is what
the next `SyncedPosition()` returns. -/
theorem c5_save_then_synced_position (cfgBackend : Option Sink) (s : PosState)
    (now : Nat) (f : String) (p : Nat) :
    syncedPosition (masterSave cfgBackend s now f p).2.1 =
      { file := f, position := p } := by
  by_cases hT : now - s.masterLastSaveTime < oneSecond
  · simp [masterSave, syncedPosition, hT]
  · cases cfgBackend with
    | none => simp [masterSave, syncedPosition, hT]
    | some sink =>
      cases h : sink { file := f, position := p } with
      | none => simp [masterSave, syncedPosition, hT, h]
      | some e => simp [masterSave, syncedPosition, hT, h]

/-- C8 counterexample.  At a concrete state more than one second past the
last persisted write, with a failing sink, `masterSave` returns the sink's
error to its caller (the claim states the error is not propagated); the
in-memory coordinates are nevertheless updated and the last-save time is
not advanced. -/
theorem c8_sink_error_propagated_cex :
    masterSave (some failingSink)
        { masterStatus := { file := "a", position := 1 }, masterLastSaveTime := 0 }
        1500 "b" 2 =
      (some { kind := ErrKind.dbFailure, msg := "sink down" },
       { masterStatus := { file := "b", position := 2 }, masterLastSaveTime := 0 },
       true) := rfl

/-- C8 amended.  When the configured sink's `Set` fails on an unthrottled
`Save(f, p)`, the error is logged and also returned to `Save`'s caller; the
in-memory coordinates still hold `(f, p)` and `masterLastSaveTime` is not
advanced, so the next unthrottled `Save` retries the sink. -/
theorem c8_sink_error_logged_and_returned (sink : Sink) (s : PosState)
    (now : Nat) (f : String) (p : Nat) (e : Err)
    (hT : oneSecond ≤ now - s.masterLastSaveTime)
    (hS : sink { file := f, position := p } = some e) :
    masterSave (some sink) s now f p =
      (some e,
       { masterStatus := { file := f, position := p },
         masterLastSaveTime := s.masterLastSaveTime },
       true) := by
  have hT2 : ¬ now - s.masterLastSaveTime < oneSecond := by omega
  simp [masterSave, hT2, hS]

/-- C8 amended, witness at a concrete input. -/
theorem c8_sink_error_logged_and_returned_witness :
    masterSave (some failingSink)
        { masterStatus := { file := "a", position := 1 }, masterLastSaveTime := 200 }
        1700 "b" 2 =
      (some { kind := ErrKind.dbFailure, msg := "sink down" },
       { masterStatus := { file := "b", position := 2 }, masterLastSaveTime := 200 },
       true) :=
  c8_sink_error_logged_and_returned failingSink
    { masterStatus := { file := "a", position := 1 }, masterLastSaveTime := 200 }
    1700 "b" 2 { kind := ErrKind.dbFailure, msg := "sink down" }
    (by decide) rfl

/-- C2.  `Canal.ClearTableCache` is an unimplemented stub: after a
successful `FindTable` caches table `t0`, clearing leaves the cache
unchanged and the next `FindTable` is served from the cache without a
fresh load (third component `false`), contradicting the claimed
invalidation; the `Tables.DeleteFromCache` helper the stub's commented-out
body refers to would have removed the entry, after which `FindTable` does
perform a fresh load (third component `true`). -/
theorem c2_clear_table_cache_is_noop :
    clearTableCache (findTable dbOkFixture mustNewTables "t0").2.1 "shop" "t0" =
      (findTable dbOkFixture mustNewTables "t0").2.1 ∧
    (findTable dbOkFixture
      (clearTableCache (findTable dbOkFixture mustNewTables "t0").2.1 "shop" "t0")
      "t0").2.2 = false ∧
    Tables.deleteFromCache (findTable dbOkFixture mustNewTables "t0").2.1 ["t0"] =
      mustNewTables ∧
    (findTable dbOkFixture
      (Tables.deleteFromCache (findTable dbOkFixture mustNewTables "t0").2.1 ["t0"])
      "t0").2.2 = true := by
  refine ⟨rfl, rfl, rfl, rfl⟩

/-- C3 counterexample.  With a database whose CREATE-statement
introspection fails, `FindTable` on the uncached table `t1` returns the
load error, yet a partially initialised entry for `t1` (no columns, no
schema) remains in the cache, and the next `FindTable` call returns that
partial entry without performing a fresh load — contradicting the claim
that no entry remains and the next call reloads. -/
theorem c3_failed_load_poisons_cache_cex :
    (findTable dbShowCreateFails mustNewTables "t1").1 =
      Except.error { kind := ErrKind.dbFailure, msg := "conn lost" } ∧
    mapLookup (findTable dbShowCreateFails mustNewTables "t1").2.1.tm "t1" =
      some (NewTable "t1") ∧
    findTable dbShowCreateFails (findTable dbShowCreateFails mustNewTables "t1").2.1
        "t1" =
      (Except.ok (NewTable "t1"),
       (findTable dbShowCreateFails mustNewTables "t1").2.1, false) := by
  refine ⟨rfl, rfl, rfl⟩

/-- C3 amended.  If the metadata load performed on a `FindTable(ctx, t)`
cache miss fails at the CREATE-statement introspection, `FindTable`
returns that error, but the partially initialised entry for `t` inserted
at the start of the load remains in the cache, so a subsequent
`FindTable(ctx, t)` returns that partial entry from the cache instead of
performing a fresh load. -/
theorem c3_failed_load_leaves_partial_entry (db : Db) (tm : Tables) (t : String)
    (e : Err)
    (hMiss : mapLookup tm.tm t = none)
    (hValid : isValidIdentifier t = none)
    (hFail : db.showCreate t = Except.error e) :
    (findTable db tm t).1 = Except.error e ∧
    mapLookup (findTable db tm t).2.1.tm t = some (NewTable t) ∧
    findTable db (findTable db tm t).2.1 t =
      (Except.ok (NewTable t), (findTable db tm t).2.1, false) := by
  have hstmt : isCreateStmt t "" = false := by simp [isCreateStmt]
  have hload : findTableLoad db tm t =
      (Except.error e, { tm with tm := mapSet tm.tm t (NewTable t) }) := by
    simp [findTableLoad, withCreateTable, wctLoop, hValid, hstmt, hFail]
  have hft : findTable db tm t =
      (Except.error e, { tm with tm := mapSet tm.tm t (NewTable t) }, true) := by
    simp [findTable, Tables.table, hMiss, hload]
  refine ⟨by rw [hft], by rw [hft]; exact mapLookup_mapSet_self tm.tm t (NewTable t), ?_⟩
  rw [hft]
  simp [findTable, Tables.table, mapLookup_mapSet_self]

/-- C3 amended, witness at a concrete input. -/
theorem c3_failed_load_leaves_partial_entry_witness :
    (findTable dbShowCreateFails mustNewTables "t9").1 =
      Except.error { kind := ErrKind.dbFailure, msg := "conn lost" } ∧
    mapLookup (findTable dbShowCreateFails mustNewTables "t9").2.1.tm "t9" =
      some (NewTable "t9") ∧
    findTable dbShowCreateFails (findTable dbShowCreateFails mustNewTables "t9").2.1
        "t9" =
      (Except.ok (NewTable "t9"),
       (findTable dbShowCreateFails mustNewTables "t9").2.1, false) :=
  c3_failed_load_leaves_partial_entry dbShowCreateFails mustNewTables "t9"
    { kind := ErrKind.dbFailure, msg := "conn lost" } rfl (by decide) rfl

/-- C6.  Close is idempotent: from a freshly constructed open client, the
first `Close()` (with the pool closing cleanly) returns nil, sets the
closed flag, closes the syncer and the pool exactly once, and awaits the
wait-group exactly once; every subsequent `Close()` — concurrent callers
serialise on the `mclose` mutex, so a racing call executes as the next
serial call — observes the flag, returns nil, and leaves the state
untouched (nothing is closed a second time), whatever the environment
would have answered for the pool close. -/
theorem c6_close_idempotent (s : CloseState)
    (hOpen : s.closed = false) (hSyn : s.syncerOpen = true)
    (h1 : s.syncerCloseCalls = 0) (h2 : s.dbcpCloseCalls = 0)
    (h3 : s.wgWaitCalls = 0) :
    close none s =
      (none, { closed := true, syncerOpen := false, syncerCloseCalls := 1,
               dbcpCloseCalls := 1, wgWaitCalls := 1 }) ∧
    ∀ r2 : Option Err, close r2 (close none s).2 = (none, (close none s).2) := by
  have hc : close none s =
      (none, { closed := true, syncerOpen := false, syncerCloseCalls := 1,
               dbcpCloseCalls := 1, wgWaitCalls := 1 }) := by
    simp [close, hOpen, hSyn, h1, h2, h3]
  refine ⟨hc, fun r2 => ?_⟩
  rw [hc]
  simp [close]

/-- A freshly constructed open client, for the Close witnesses. -/
def closeOpenState : CloseState :=
  { closed := false, syncerOpen := true, syncerCloseCalls := 0,
    dbcpCloseCalls := 0, wgWaitCalls := 0 }

/-- C6 witness at a concrete open state. -/
theorem c6_close_idempotent_witness :
    close none closeOpenState =
      (none, { closed := true, syncerOpen := false, syncerCloseCalls := 1,
               dbcpCloseCalls := 1, wgWaitCalls := 1 }) ∧
    ∀ r2 : Option Err,
      close r2 (close none closeOpenState).2 = (none, (close none closeOpenState).2) :=
  c6_close_idempotent closeOpenState rfl rfl rfl rfl rfl

/-- C7 counterexample.  From a concrete open client whose pool close
fails, `Close()` returns the error but the wait-group is never awaited
(count stays 0), contradicting the claim that the shutdown sequence still
completes with the worker joined. -/
theorem c7_close_error_skips_wait_cex :
    close (some { kind := ErrKind.dbFailure, msg := "close failed" })
        { closed := false, syncerOpen := true, syncerCloseCalls := 0,
          dbcpCloseCalls := 0, wgWaitCalls := 0 } =
      (some { kind := ErrKind.dbFailure, msg := "close failed" },
       { closed := true, syncerOpen := false, syncerCloseCalls := 1,
         dbcpCloseCalls := 1, wgWaitCalls := 0 }) := rfl

/-- C7 amended.  If closing the database connection pool inside `Close()`
returns an error, `Close` propagates that error once (a second `Close`
returns nil), the closed flag is set and the syncer is closed — but
`Close` returns before the wait-group is awaited, so the background worker
is not joined on this path. -/
theorem c7_close_error_returns_before_wait (s : CloseState) (e : Err)
    (hOpen : s.closed = false) (hSyn : s.syncerOpen = true)
    (h1 : s.syncerCloseCalls = 0) (h2 : s.dbcpCloseCalls = 0)
    (h3 : s.wgWaitCalls = 0) :
    close (some e) s =
      (some e, { closed := true, syncerOpen := false, syncerCloseCalls := 1,
                 dbcpCloseCalls := 1, wgWaitCalls := 0 }) ∧
    ∀ r2 : Option Err, close r2 (close (some e) s).2 = (none, (close (some e) s).2) := by
  have hc : close (some e) s =
      (some e, { closed := true, syncerOpen := false, syncerCloseCalls := 1,
                 dbcpCloseCalls := 1, wgWaitCalls := 0 }) := by
    simp [close, hOpen, hSyn, h1, h2, h3]
  refine ⟨hc, fun r2 => ?_⟩
  rw [hc]
  simp [close]

/-- C7 amended, witness at a concrete input. -/
theorem c7_close_error_returns_before_wait_witness :
    close (some { kind := ErrKind.dbFailure, msg := "pool close failed" }) closeOpenState =
      (some { kind := ErrKind.dbFailure, msg := "pool close failed" },
       { closed := true, syncerOpen := false, syncerCloseCalls := 1,
         dbcpCloseCalls := 1, wgWaitCalls := 0 }) ∧
    ∀ r2 : Option Err,
      close r2 (close (some { kind := ErrKind.dbFailure, msg := "pool close failed" })
          closeOpenState).2 =
      (none, (close (some { kind := ErrKind.dbFailure, msg := "pool close failed" })
          closeOpenState).2) :=
  c7_close_error_returns_before_wait closeOpenState
    { kind := ErrKind.dbFailure, msg := "pool close failed" } rfl rfl rfl rfl rfl

/-- A database fixture whose `binlog_row_image` variable is FULL. -/
def dbRowImageFull : Db := { dbOkFixture with
  sysVar := fun n => if n = "binlog_row_image" then Except.ok "FULL" else Except.ok "ROW" }

/-- A database fixture whose `binlog_format` variable is STATEMENT. -/
def dbFormatStatement : Db := { dbOkFixture with
  sysVar := fun n => if n = "binlog_format" then Except.ok "STATEMENT" else Except.ok "FULL" }

/-- The DSN of the scenario in the spec, as parsed by the connector. -/
def cfgC10 : MysqlConfig := {
  user := "user"
  passwd := "pass"
  addr := "host:3306"
  dbName := "shop"
  params := [("BinlogStartFile", "bin.000005"), ("BinlogStartPosition", "4"),
             ("BinlogSlaveId", "101")] }

/-- C9.  The binlog_format half of the claim holds: with the server in
STATEMENT format, `withCheckBinlogRowFormat` yields a NotSupported error
and `NewCanal` fails with it, while a ROW-format server passes.  The
binlog_row_image half is inverted in the source: with the server variable
FULL, `CheckBinlogRowImage` for the requested image FULL (a match) returns
a NotSupported error, and for the requested image MINIMAL (a mismatch)
returns nil — the opposite of the claim, and of the error message's own
wording. -/
theorem c9_binlog_row_image_check_inverted :
    (withCheckBinlogRowFormat dbFormatStatement).map Err.kind =
      some ErrKind.notSupported ∧
    newCanal cfgC10 dbFormatStatement =
      Except.error { kind := ErrKind.notSupported, msg := "binlog variable binlog_format must have the configured ROW format" } ∧
    withCheckBinlogRowFormat dbOkFixture = none ∧
    checkBinlogRowImage [] dbRowImageFull "FULL" =
      some { kind := ErrKind.notSupported, msg := "MySQL uses this binlog row image, but we want the requested one" } ∧
    checkBinlogRowImage [] dbRowImageFull "MINIMAL" = none := by
  refine ⟨rfl, by decide, rfl, rfl, rfl⟩

/-- C10.  Constructing the client from the scenario DSN strips all custom
parameters from the connector DSN (none of the four survives — `flavor`
was not present to begin with), seeds the master position to file
bin.000005 at offset 4, and configures the syncer with server ID 101; the
same DSN without a `BinlogSlaveId` parameter would get the default 100;
and in general a supplied `BinlogStartPosition` that parses below 4 leaves
the server-derived offset in place. -/
theorem c10_dsn_custom_params :
    newCanal cfgC10 dbOkFixture = Except.ok {
      dsnParams := []
      canalParams := [("BinlogStartFile", "bin.000005"),
                      ("BinlogStartPosition", "4"), ("BinlogSlaveId", "101")]
      masterStatus := { file := "bin.000005", position := 4 }
      host := "host"
      port := 3306
      serverID := 101 } ∧
    prepareSyncer "host:3306" [] = Except.ok ("host", 3306, 100) ∧
    (∀ (params : List (String × String)) (ms : MasterStatus) (v : String),
      mapLookup params "BinlogStartPosition" = some v → v ≠ "" → toUint v < 4 →
      (updateBinlogStart params ms).position = ms.position) := by
  refine ⟨rfl, rfl, ?_⟩
  intro params ms v hv hne hlt
  have hne2 : (v != "") = true := by simp [hne]
  have hge : ¬ 4 ≤ toUint v := by omega
  unfold updateBinlogStart
  rw [hv]
  simp only [hne2, if_true, if_neg hge]
  cases mapLookup params "BinlogStartFile" with
  | none => rfl
  | some w => by_cases hw : (w != "") = true <;> simp [hw]

/-- C10 witness: a start position of 3 (below the minimum binlog offset 4)
is ignored in favour of the server-derived offset. -/
theorem c10_dsn_custom_params_witness :
    (updateBinlogStart [("BinlogStartPosition", "3")]
      { file := "srv-bin.000009", position := 157 }).position = 157 :=
  c10_dsn_custom_params.2.2 [("BinlogStartPosition", "3")]
    { file := "srv-bin.000009", position := 157 } "3" rfl (by decide) (by decide)

/-- Each save step either leaves the successful-write count and the
last-save time unchanged, or — on an unthrottled, successful sink write —
increments the count by one and moves the last-save time to the call's
time, which must then be at least one second past the previous one. -/
theorem saveStep_cases (cfgBackend : Option Sink) (acc : PosState × Nat)
    (call : SaveCall) :
    ((saveStep cfgBackend acc call).2 = acc.2 ∧
      (saveStep cfgBackend acc call).1.masterLastSaveTime =
        acc.1.masterLastSaveTime) ∨
    ((saveStep cfgBackend acc call).2 = acc.2 + 1 ∧
      (saveStep cfgBackend acc call).1.masterLastSaveTime = call.time ∧
      oneSecond ≤ call.time - acc.1.masterLastSaveTime) := by
  by_cases hT : call.time - acc.1.masterLastSaveTime < oneSecond
  · left
    simp [saveStep, masterSave, hT]
  · cases cfgBackend with
    | none =>
      left
      simp [saveStep, masterSave, hT]
    | some sink =>
      cases h : sink { file := call.file, position := call.pos } with
      | some e =>
        left
        simp [saveStep, masterSave, hT, h]
      | none =>
        right
        simp [saveStep, masterSave, hT, h]
        omega

/-- Folding saves whose times all lie in a window narrower than one second
keeps the successful-write count at most one: once a write succeeds, the
last-save time lies in the window, so every later call in the window is
throttled. -/
theorem runSaves_window_bound_aux (cfgBackend : Option Sink) (lo hi : Nat)
    (hwin : hi < lo + oneSecond) :
    ∀ (calls : List SaveCall) (acc : PosState × Nat),
      (∀ c ∈ calls, lo ≤ c.time ∧ c.time ≤ hi) →
      (acc.2 = 0 ∨ (acc.2 = 1 ∧ lo ≤ acc.1.masterLastSaveTime)) →
      ((calls.foldl (saveStep cfgBackend) acc).2 = 0 ∨
       ((calls.foldl (saveStep cfgBackend) acc).2 = 1 ∧
        lo ≤ (calls.foldl (saveStep cfgBackend) acc).1.masterLastSaveTime)) := by
  intro calls
  induction calls with
  | nil =>
    intro acc _ hinv
    simpa using hinv
  | cons hd tl ih =>
    intro acc hmem hinv
    simp only [List.foldl_cons]
    apply ih
    · intro c hc
      exact hmem c (List.mem_cons_of_mem hd hc)
    · have hhd := hmem hd (List.mem_cons_self hd tl)
      rcases saveStep_cases cfgBackend acc hd with ⟨hcnt, htime⟩ | ⟨hcnt, htime, hge⟩
      · rw [hcnt, htime]
        exact hinv
      · rcases hinv with h0 | ⟨h1, hlo⟩
        · right
          exact ⟨by rw [hcnt, h0], by rw [htime]; exact hhd.1⟩
        · exfalso
          have h2 := hhd.2
          omega

/-- C4.  Throttled persistence with a sink configured: a `Save` less than
one second after the last successful persist performs no sink write and
only updates the in-memory coordinates; a `Save` at least one second after
it performs exactly one sink write; and any sequence of `Save` calls whose
times fit in a window narrower than one second — such as ten calls within
100ms — produces at most one successful write to the sink. -/
theorem c4_throttled_persistence :
    (∀ (sink : Sink) (s : PosState) (now : Nat) (f : String) (p : Nat),
      now - s.masterLastSaveTime < oneSecond →
      masterSave (some sink) s now f p =
        (none,
         { masterStatus := { file := f, position := p },
           masterLastSaveTime := s.masterLastSaveTime },
         false)) ∧
    (∀ (sink : Sink) (s : PosState) (now : Nat) (f : String) (p : Nat),
      oneSecond ≤ now - s.masterLastSaveTime →
      (masterSave (some sink) s now f p).2.2 = true) ∧
    (∀ (cfgBackend : Option Sink) (s : PosState) (lo hi : Nat)
       (calls : List SaveCall),
      hi < lo + oneSecond →
      (∀ c ∈ calls, lo ≤ c.time ∧ c.time ≤ hi) →
      (runSaves cfgBackend s calls).2 ≤ 1) := by
  refine ⟨?_, ?_, ?_⟩
  · intro sink s now f p hT
    simp [masterSave, hT]
  · intro sink s now f p hT
    have hT2 : ¬ now - s.masterLastSaveTime < oneSecond := by omega
    cases h : sink { file := f, position := p } <;> simp [masterSave, hT2, h]
  · intro cfgBackend s lo hi calls hwin hmem
    have hb := runSaves_window_bound_aux cfgBackend lo hi hwin calls (s, 0)
      hmem (Or.inl rfl)
    unfold runSaves
    rcases hb with h | ⟨h, _⟩ <;> omega

/-- A sink whose `Set` always succeeds. -/
def okSink : Sink := fun _ => none

/-- Ten `Save` calls within 100 milliseconds. -/
def tenSaves : List SaveCall :=
  (List.range 10).map (fun k => { time := 2000 + 10 * k, file := "bin.000007", pos := 300 + k })

/-- C4 witness: the three parts at concrete inputs — a throttled save 500ms
after a persist, an unthrottled save 1500ms after it, and ten saves within
100ms yielding at most one successful sink write. -/
theorem c4_throttled_persistence_witness :
    masterSave (some okSink)
        { masterStatus := { file := "a", position := 1 }, masterLastSaveTime := 0 }
        500 "b" 2 =
      (none,
       { masterStatus := { file := "b", position := 2 }, masterLastSaveTime := 0 },
       false) ∧
    (masterSave (some okSink)
        { masterStatus := { file := "a", position := 1 }, masterLastSaveTime := 0 }
        1500 "b" 2).2.2 = true ∧
    (runSaves (some okSink)
        { masterStatus := { file := "a", position := 1 }, masterLastSaveTime := 0 }
        tenSaves).2 ≤ 1 :=
  ⟨c4_throttled_persistence.1 okSink
      { masterStatus := { file := "a", position := 1 }, masterLastSaveTime := 0 }
      500 "b" 2 (by decide),
   c4_throttled_persistence.2.1 okSink
      { masterStatus := { file := "a", position := 1 }, masterLastSaveTime := 0 }
      1500 "b" 2 (by decide),
   c4_throttled_persistence.2.2 (some okSink)
      { masterStatus := { file := "a", position := 1 }, masterLastSaveTime := 0 }
      2000 2090 tenSaves (by decide) (by decide)⟩

/-- The invariant holding while only lookup-and-enroll steps have run: the
cache is still the initial one, no load has executed, and no caller has
returned. -/
def sfQuiet (tm : Tables) (s : SfState) : Prop :=
  s.tables = tm ∧ s.loadCount = 0 ∧
  ∀ c ∈ s.callers, c.pc ≠ Pc.done ∧ c.res = none

/-- A `check` step on an uncached table preserves the quiet invariant: the
caller can only become leader or waiter, never return. -/
theorem sfExec_check_quiet {db : Db} {t : String} {tm : Tables}
    {s s1 : SfState} {i : Nat}
    (hMiss : mapLookup tm.tm t = none) (hq : sfQuiet tm s)
    (h : sfExec db t s (SfLabel.check i) = some s1) : sfQuiet tm s1 := by
  obtain ⟨htab, hcnt, hcall⟩ := hq
  simp only [sfExec] at h
  cases hg : s.callers.get? i with
  | none =>
    rw [hg] at h
    exact absurd h (by simp)
  | some c =>
    rw [hg] at h
    by_cases hpc : c.pc = Pc.start
    · have htbl : Tables.table s.tables t =
          Except.error { kind := ErrKind.notFound, msg := t } := by
        rw [htab]
        simp [Tables.table, hMiss]
      rw [htbl] at h
      by_cases hfa : s.flightActive
      · simp [hpc, hfa] at h
        refine ⟨by rw [← h]; exact htab, by rw [← h]; exact hcnt, ?_⟩
        rw [← h]
        intro c2 hc2
        rcases List.mem_or_eq_of_mem_set hc2 with hmem | heq
        · exact hcall c2 hmem
        · rw [heq]
          exact ⟨by simp, rfl⟩
      · simp [hpc, hfa] at h
        refine ⟨by rw [← h]; exact htab, by rw [← h]; exact hcnt, ?_⟩
        rw [← h]
        intro c2 hc2
        rcases List.mem_or_eq_of_mem_set hc2 with hmem | heq
        · exact hcall c2 hmem
        · rw [heq]
          exact ⟨by simp, rfl⟩
    · simp [hpc] at h

/-- A run of `check` steps from a quiet state ends in a quiet state. -/
theorem sfRun_checks_quiet {db : Db} {t : String} {tm : Tables}
    (hMiss : mapLookup tm.tm t = none) :
    ∀ (cs : List SfLabel) (s s1 : SfState),
      (∀ l ∈ cs, l ≠ SfLabel.complete) → sfQuiet tm s →
      sfRun db t s cs = some s1 → sfQuiet tm s1 := by
  intro cs
  induction cs with
  | nil =>
    intro s s1 _ hq hrun
    simp [sfRun] at hrun
    rw [← hrun]
    exact hq
  | cons l ls ih =>
    intro s s1 hne hq hrun
    unfold sfRun at hrun
    cases hx : sfExec db t s l with
    | none =>
      rw [hx] at hrun
      exact absurd hrun (by simp)
    | some s2 =>
      rw [hx] at hrun
      have hq2 : sfQuiet tm s2 := by
        cases l with
        | check i => exact sfExec_check_quiet hMiss hq hx
        | complete => exact absurd rfl (hne SfLabel.complete (List.mem_cons_self _ _))
      exact ih s2 s1 (fun l2 hl2 => hne l2 (List.mem_cons_of_mem l hl2)) hq2 hrun

/-- Runs distribute over trace concatenation. -/
theorem sfRun_append (db : Db) (t : String) :
    ∀ (xs ys : List SfLabel) (s : SfState),
      sfRun db t s (xs ++ ys) =
        match sfRun db t s xs with
        | none => none
        | some s2 => sfRun db t s2 ys := by
  intro xs
  induction xs with
  | nil =>
    intro ys s
    simp [sfRun]
  | cons l ls ih =>
    intro ys s
    simp only [List.cons_append, sfRun]
    cases hx : sfExec db t s l with
    | none => rfl
    | some s2 => exact ih ys s2

/-- A one-label run is exactly that label's step. -/
theorem sfRun_single (db : Db) (t : String) (s : SfState) (l : SfLabel) :
    sfRun db t s [l] = sfExec db t s l := by
  simp only [sfRun]
  cases h : sfExec db t s l <;> simp [h, sfRun]

/-- The `complete` step from a quiet state: the one load has now executed
once, and every caller that has returned carries the load's result. -/
theorem sfExec_complete_quiet {db : Db} {t : String} {tm : Tables}
    {s s1 : SfState}
    (hq : sfQuiet tm s)
    (h : sfExec db t s SfLabel.complete = some s1) :
    s1.loadCount = 1 ∧
    ∀ c ∈ s1.callers, c.pc = Pc.done → c.res = some (sfExpected db tm t) := by
  obtain ⟨htab, hcnt, hcall⟩ := hq
  unfold sfExec at h
  by_cases hl : s.callers.any (fun c => decide (c.pc = Pc.leading)) = true
  · rw [if_pos hl] at h
    rw [htab] at h
    simp at h
    constructor
    · rw [← h, hcnt]
    · rw [← h]
      intro c2 hc2 _
      simp only at hc2
      rcases List.mem_map.mp hc2 with ⟨a, hamem, haeq⟩
      by_cases hcase : a.pc = Pc.leading ∨ a.pc = Pc.waiting
      · rw [if_pos hcase] at haeq
        rw [← haeq]
        simp [sfExpected]
      · rw [if_neg hcase] at haeq
        rename_i hdone
        rw [← haeq] at hdone
        exact absurd hdone (hcall a hamem).1
  · rw [if_neg hl] at h
    exact absurd h (by simp)

/-- C1.  Single-flight deduplication for `FindTable`: starting from a cache
with no entry for `t` and `n ≥ 2` concurrent callers, along any
interleaving in which every caller runs its lookup-and-enroll section
before the in-flight load completes (the labels before the final
`complete` are `check` steps) and in which every caller has returned at
the end, the underlying metadata load has executed exactly once and every
caller holds the identical result of that one load (the same table value
or the same error). -/
theorem c1_single_flight_dedup (db : Db) (t : String) (tm : Tables) (n : Nat)
    (cs : List SfLabel) (s1 : SfState)
    (_hn : 2 ≤ n)
    (hMiss : mapLookup tm.tm t = none)
    (hcs : ∀ l ∈ cs, l ≠ SfLabel.complete)
    (hrun : sfRun db t (sfInit n tm) (cs ++ [SfLabel.complete]) = some s1)
    (hdone : ∀ c ∈ s1.callers, c.pc = Pc.done) :
    s1.loadCount = 1 ∧
    ∀ c ∈ s1.callers, c.res = some (sfExpected db tm t) := by
  rw [sfRun_append] at hrun
  cases hmid : sfRun db t (sfInit n tm) cs with
  | none =>
    rw [hmid] at hrun
    exact absurd hrun (by simp)
  | some s2 =>
    rw [hmid] at hrun
    have hqinit : sfQuiet tm (sfInit n tm) := by
      refine ⟨rfl, rfl, ?_⟩
      intro c hc
      have := List.eq_of_mem_replicate hc
      rw [this]
      exact ⟨by simp, rfl⟩
    have hq2 : sfQuiet tm s2 :=
      sfRun_checks_quiet hMiss cs (sfInit n tm) s2 hcs hqinit hmid
    have hexec : sfExec db t s2 SfLabel.complete = some s1 := by
      dsimp only at hrun
      rw [sfRun_single] at hrun
      exact hrun
    have hres := sfExec_complete_quiet hq2 hexec
    exact ⟨hres.1, fun c hc => hres.2 c hc (hdone c hc)⟩

/-- The concurrent scenario used as the C1 witness: two callers, both
enrolling before the load completes. -/
def c1Trace : List SfLabel := [SfLabel.check 0, SfLabel.check 1]

/-- The final state of the C1 witness run. -/
def c1FinalState : SfState :=
  (sfRun dbOkFixture "t0" (sfInit 2 mustNewTables)
    (c1Trace ++ [SfLabel.complete])).getD (sfInit 2 mustNewTables)

/-- C1 witness: two concurrent callers on the uncached table `t0`, both
checking before the load completes; the run executes the load once and
both callers hold its result. -/
theorem c1_single_flight_dedup_witness :
    c1FinalState.loadCount = 1 ∧
    ∀ c ∈ c1FinalState.callers,
      c.res = some (sfExpected dbOkFixture mustNewTables "t0") :=
  c1_single_flight_dedup dbOkFixture "t0" mustNewTables 2 c1Trace c1FinalState
    (by decide) rfl (by decide) rfl (by decide)
